import Mathlib

/-!
Verification of the Minegate relay server (src/server.js) against its
natural-language specification.

The embedding models the single-module Node.js program shallowly:

* JavaScript values that can appear in parsed JSON messages and in registry
  entries are the inductive `JSVal` (with `JSList` for arrays and `JSFields`
  for the ordered property lists of objects; dates are represented by their
  epoch value in milliseconds as `JSVal.num`; the opaque WebSocket transport
  handle of an entry is `JSVal.wsRef h`, with openness of handle `h` looked up
  in the ambient context).
* `connectedServers` (a JS `Map`) is an insertion-ordered association list
  `RelayState := List (String × ServerInfo)`; `jsMapSet`, `jsMapDelete`,
  `jsMapGet`, `jsMapHas`, `jsMapSize` mirror the `Map` methods used by the
  source, including the JS `Map` iteration-order behaviour (replacing an
  existing key keeps its position, inserting a new key appends).
  The `serverSessions` map declared on line 19 of the source is never used by
  the program and is not modelled.
* Ambient effects of the process are gathered in `Ctx`: the current clock
  (`now`, epoch milliseconds), which WebSocket handles are in `readyState ===
  OPEN` (`openWs`), the HMAC-SHA256/base64 computation keyed by the process
  secret (`hmac`, an opaque-to-the-model pure function of the canonical
  payload string), ISO-8601 date formatting (`isoStr`), the fresh UUID used by
  `createMessage` (`freshId`), and ISO date parsing (`parseDate`, returning
  `none` for strings that parse to `Invalid Date`, whose arithmetic yields
  `NaN`).
* Each event handler returns an `HOut`: the post-state, the list `gen` of
  relay-generated messages (the `createMessage` calls it performed, in order)
  and the list `sends` of `ws.send` calls actually performed (in order).

Every definition follows the correspondingly named function of src/server.js;
line numbers in doc comments refer to that file.
-/

mutual

/-- JavaScript values as used by the relay: JSON data, `undefined`, and the
opaque WebSocket handle stored in registry entries.  Numbers are modelled as
rationals (the program only ever manipulates integral millisecond counts and
small integers; `NaN` is handled at the use sites that can produce it, via
`Option`). -/
inductive JSVal : Type where
  | undef : JSVal
  | null : JSVal
  | bool : Bool → JSVal
  | num : ℚ → JSVal
  | str : String → JSVal
  | arr : JSList → JSVal
  | obj : JSFields → JSVal
  | wsRef : Nat → JSVal

/-- A JavaScript array's element list. -/
inductive JSList : Type where
  | nil : JSList
  | cons : JSVal → JSList → JSList

/-- A JavaScript object's ordered property list. -/
inductive JSFields : Type where
  | nil : JSFields
  | cons : String → JSVal → JSFields → JSFields

end

deriving instance DecidableEq for JSVal, JSList, JSFields

/-- Build an array's element list from a Lean list. -/
def JSList.ofList : List JSVal → JSList
  | [] => .nil
  | x :: xs => .cons x (JSList.ofList xs)

/-- Build an object's property list from a Lean list. -/
def JSFields.ofList : List (String × JSVal) → JSFields
  | [] => .nil
  | (k, v) :: xs => .cons k v (JSFields.ofList xs)

/-- Concatenation of property lists. -/
def JSFields.append : JSFields → JSFields → JSFields
  | .nil, gs => gs
  | .cons k v fs, gs => .cons k v (JSFields.append fs gs)

/-- First property with the given name (`undefined` when absent; the program
never constructs objects with duplicate property names). -/
def JSFields.findVal : JSFields → String → JSVal
  | .nil, _ => .undef
  | .cons k v fs, name => if k = name then v else JSFields.findVal fs name

namespace JSVal

/-- JavaScript truthiness: `undefined`, `null`, `false`, `0`, and the empty
string are falsy; every object (including arrays and the transport handle) is
truthy. -/
def truthy : JSVal → Bool
  | undef => false
  | null => false
  | bool b => b
  | num q => q ≠ 0
  | str s => s ≠ ""
  | arr _ => true
  | obj _ => true
  | wsRef _ => true

/-- JavaScript property access `v.k`: on an object, the named property
(`undefined` when absent); on any non-object, `undefined` (the program never
reads properties of `null`, which would throw — except through the guarded
path modelled in `validateParsed`). -/
def getField : JSVal → String → JSVal
  | obj fs, k => fs.findVal k
  | _, _ => undef

end JSVal

/-- String form of a JS number as produced by `String(q)`.  Exact for the
integral values the program produces; non-integral rationals (never produced
by the source) are rendered as `num/den`. -/
def jsNumToString (q : ℚ) : String :=
  if q.den = 1 then toString q.num else toString q.num ++ "/" ++ toString q.den

mutual

/-- JavaScript `String(v)` / template-literal coercion. -/
def jsToString : JSVal → String
  | .undef => "undefined"
  | .null => "null"
  | .bool b => if b then "true" else "false"
  | .num q => jsNumToString q
  | .str s => s
  | .arr xs => jsToStringArr xs
  | .obj _ => "[object Object]"
  | .wsRef _ => "[object Object]"

/-- `Array.prototype.toString`: elements coerced and joined with commas. -/
def jsToStringArr : JSList → String
  | .nil => ""
  | .cons x .nil => jsToString x
  | .cons x (.cons y xs) => jsToString x ++ "," ++ jsToStringArr (.cons y xs)

end

mutual

/-- `JSON.stringify` on the values the program serializes (no cycles, no
functions). -/
def jsonStringify : JSVal → String
  | .undef => "null"
  | .null => "null"
  | .bool b => if b then "true" else "false"
  | .num q => jsNumToString q
  | .str s => "\"" ++ s ++ "\""
  | .arr xs => "[" ++ jsonStringifyArr xs ++ "]"
  | .obj fs => "\x7b" ++ jsonStringifyObj fs ++ "\x7d"
  | .wsRef _ => "\x7b\x7d"

def jsonStringifyArr : JSList → String
  | .nil => ""
  | .cons x .nil => jsonStringify x
  | .cons x (.cons y xs) =>
      jsonStringify x ++ "," ++ jsonStringifyArr (.cons y xs)

def jsonStringifyObj : JSFields → String
  | .nil => ""
  | .cons k v .nil => "\"" ++ k ++ "\":" ++ jsonStringify v
  | .cons k v (.cons k2 v2 fs) =>
      "\"" ++ k ++ "\":" ++ jsonStringify v ++ ","
        ++ jsonStringifyObj (.cons k2 v2 fs)

end

/-- A registry entry, mirroring the `serverInfo` object literal of lines
106–113.  All fields hold `JSVal` because `handleServerRegister` (line 240)
merges an arbitrary inbound payload over the entry with `Object.assign`, which
can replace any of them; `extra` collects merged properties outside the six
literal fields. -/
structure ServerInfo : Type where
  serverId : JSVal
  version : JSVal
  capabilities : JSVal
  connected : JSVal
  lastSeen : JSVal
  ws : JSVal
  extra : JSFields
deriving DecidableEq

/-- `connectedServers` (line 18): a JS `Map` from serverId strings to entries,
in insertion order. -/
abbrev RelayState : Type := List (String × ServerInfo)

/-- `Map.prototype.get`. -/
def jsMapGet (st : RelayState) (k : String) : Option ServerInfo :=
  (List.find? (fun e => e.1 = k) st).map (fun e => e.2)

/-- `Map.prototype.has`. -/
def jsMapHas (st : RelayState) (k : String) : Bool :=
  List.any st (fun e => e.1 = k)

/-- `Map.prototype.set`: replace in place when the key exists (JS `Map`
keeps the original insertion position), append otherwise. -/
def jsMapSet (st : RelayState) (k : String) (v : ServerInfo) : RelayState :=
  if jsMapHas st k then
    List.map (fun e => if e.1 = k then (k, v) else e) st
  else
    st ++ [(k, v)]

/-- `Map.prototype.delete` (the registry only ever holds distinct keys). -/
def jsMapDelete (st : RelayState) (k : String) : RelayState :=
  List.filter (fun e => ¬ e.1 = k) st

/-- `Map.prototype.size`. -/
def jsMapSize (st : RelayState) : Nat :=
  List.length st

/-- Ambient process context: clock, transport openness, HMAC, date formatting
and parsing, and the UUID supply for `createMessage`.  `hmac s` stands for
`crypto.createHmac('sha256', SHARED_SECRET).update(s).digest('base64')` — a
pure function of the canonical string once the process-wide secret is fixed.
`parseDate s = none` models `new Date(s)` being `Invalid Date` (all arithmetic
on it yields `NaN`). -/
structure Ctx : Type where
  now : ℚ
  openWs : Nat → Bool
  hmac : String → String
  isoStr : ℚ → String
  freshId : String
  parseDate : String → Option ℚ

/-- `Math.abs`, written so that it evaluates by kernel reduction (see
`ratAbs_eq`: it agrees with `|·|` on ℚ). -/
def ratAbs (q : ℚ) : ℚ :=
  if q < 0 then -q else q

/-- `new Date(x)` coerced to a numeric epoch value, for the `timestamp` field
reaching line 32 (`none` = `Invalid Date` / `NaN`): strings use date parsing,
numbers are epoch milliseconds, `null`/booleans coerce numerically, objects
are invalid. -/
def toDateMs (ctx : Ctx) : JSVal → Option ℚ
  | .str s => ctx.parseDate s
  | .num q => some q
  | .bool b => some (if b then 1 else 0)
  | .null => some 0
  | _ => none

/-- `signMessage` (lines 54–57): HMAC over the pipe-joined canonical string
built from the message's `type`, `timestamp`, `from`, `to` and
`JSON.stringify(message.payload || {})`. -/
def signMessage (ctx : Ctx) (message : JSVal) : String :=
  let payloadVal := message.getField "payload"
  let payloadStr :=
    jsonStringify (if payloadVal.truthy then payloadVal else JSVal.obj .nil)
  ctx.hmac
    (jsToString (message.getField "type") ++ "|"
      ++ jsToString (message.getField "timestamp") ++ "|"
      ++ jsToString (message.getField "from") ++ "|"
      ++ jsToString (message.getField "to") ++ "|"
      ++ payloadStr)

/-- `createMessage` (lines 59–70): fresh id, current ISO timestamp,
`payload || {}`, then the signature of the message is attached. -/
def createMessage (ctx : Ctx) (type fromId toId : String) (payload : JSVal) :
    JSVal :=
  let base : JSFields :=
    .ofList
      [("type", JSVal.str type),
       ("id", JSVal.str ctx.freshId),
       ("timestamp", JSVal.str (ctx.isoStr ctx.now)),
       ("from", JSVal.str fromId),
       ("to", JSVal.str toId),
       ("payload", if payload.truthy then payload else JSVal.obj .nil)]
  JSVal.obj
    (base.append
      (.cons "signature" (JSVal.str (signMessage ctx (JSVal.obj base))) .nil))

/-- Result of `validateMessage`. -/
inductive VResult : Type where
  | ok : JSVal → VResult
  | err : String → VResult
deriving DecidableEq

/-- `validateMessage` (lines 22–52) applied to the already-`JSON.parse`d
message value (the `data.toString()` / `JSON.parse` transport step and its
`Invalid JSON` catch are outside this model, except that property access on a
parsed top-level `null` throws and is caught by the same handler, line 49).
Checks, in order: the five required fields are truthy (line 27); the
timestamp is within 5 minutes of `now` (lines 31–38, where an unparseable
date gives `NaN` and `NaN > 5` is `false`, so the check passes); if a truthy
`signature` is present it must be strictly equal to the recomputed signature
(lines 41–46). -/
def validateParsed (ctx : Ctx) (parsed : JSVal) : VResult :=
  if parsed = JSVal.null then .err "Invalid JSON"
  else if ¬((parsed.getField "type").truthy && (parsed.getField "id").truthy
      && (parsed.getField "from").truthy && (parsed.getField "to").truthy
      && (parsed.getField "timestamp").truthy) then
    .err "Missing required fields"
  else
    let fresh : Bool :=
      match toDateMs ctx (parsed.getField "timestamp") with
      | none => true
      | some t => !(ratAbs (ctx.now - t) / 1000 / 60 > 5 : Bool)
    if ¬fresh then .err "Message timestamp too old"
    else if (parsed.getField "signature").truthy then
      if parsed.getField "signature" ≠ JSVal.str (signMessage ctx parsed) then
        .err "Invalid signature"
      else .ok parsed
    else .ok parsed

/-- One performed `ws.send`: the transport-handle value it was invoked on and
the message sent (the source sends `JSON.stringify(message)`; the model keeps
the structured message). -/
structure Send : Type where
  ws : JSVal
  msg : JSVal
deriving DecidableEq

/-- Result of running one event handler: the post-state, the relay-generated
messages (`createMessage` calls, in order) and the `ws.send` calls performed
(in order). -/
structure HOut : Type where
  st : RelayState
  gen : List JSVal
  sends : List Send
deriving DecidableEq

/-- `x.readyState === WebSocket.OPEN` for the `ws` value stored in an entry:
true exactly for a transport handle whose state is open (a non-handle value —
possible after `Object.assign` — has no `readyState`). -/
def wsOpen (ctx : Ctx) : JSVal → Bool
  | .wsRef h => ctx.openWs h
  | _ => false

/-- `broadcastToAll` (lines 204–212): send the message on every registry
entry's transport that is open, skipping the entry whose key equals
`excludeServerId` (the source's default `null` never equals a string key and
is modelled by `none`). -/
def broadcastToAll (ctx : Ctx) (st : RelayState) (message : JSVal)
    (excludeServerId : Option String) : List Send :=
  st.filterMap (fun e =>
    if excludeServerId ≠ some e.1 ∧ wsOpen ctx e.2.ws then
      some ⟨e.2.ws, message⟩
    else none)

/-- `sendToServer` (lines 214–221): deliver to the target's transport when the
entry exists and its transport is open; report success. -/
def sendToServer (ctx : Ctx) (st : RelayState) (targetServerId : String)
    (message : JSVal) : List Send × Bool :=
  match jsMapGet st targetServerId with
  | some serverInfo =>
      if wsOpen ctx serverInfo.ws then ([⟨serverInfo.ws, message⟩], true)
      else ([], false)
  | none => ([], false)

/-- `handleHeartbeat` (lines 223–234): build the `heartbeat_ack` (carrying
server time and registry size), then send it on the sender's registry
transport if the sender still has an entry (this `ws.send` has no open-state
guard in the source). -/
def handleHeartbeat (ctx : Ctx) (st : RelayState) (serverId : String) : HOut :=
  let response :=
    createMessage ctx "heartbeat_ack" "relay" serverId
      (JSVal.obj (.ofList
        [("server_time", JSVal.str (ctx.isoStr ctx.now)),
         ("connected_servers", JSVal.num (jsMapSize st))]))
  match jsMapGet st serverId with
  | some serverInfo => ⟨st, [response], [⟨serverInfo.ws, response⟩]⟩
  | none => ⟨st, [response], []⟩

/-- One property assignment of `Object.assign(serverInfo, payload)`: the six
literal fields of the entry are overwritten by name, any other property lands
in `extra`. -/
def assignField (info : ServerInfo) (k : String) (v : JSVal) : ServerInfo :=
  if k = "serverId" then { info with serverId := v }
  else if k = "version" then { info with version := v }
  else if k = "capabilities" then { info with capabilities := v }
  else if k = "connected" then { info with connected := v }
  else if k = "lastSeen" then { info with lastSeen := v }
  else if k = "ws" then { info with ws := v }
  else { info with extra := info.extra.append (.cons k v .nil) }

/-- `Object.assign(serverInfo, payload)` over an object payload's own
properties, in order.  A truthy non-object payload (a primitive) contributes
no named properties beyond string index properties, which could never collide
with the entry's fields and are dropped by the model. -/
def objAssign (info : ServerInfo) : JSVal → ServerInfo
  | .obj fs => objAssignFields info fs
  | _ => info
where
  objAssignFields : ServerInfo → JSFields → ServerInfo
    | info, .nil => info
    | info, .cons k v fs => objAssignFields (assignField info k v) fs

/-- `handleServerRegister` (lines 236–243): if the sender has a registry entry
and the message has a truthy payload, shallow-merge the payload into the
entry. -/
def handleServerRegister (st : RelayState) (serverId : String)
    (message : JSVal) : HOut :=
  match jsMapGet st serverId with
  | some serverInfo =>
      if (message.getField "payload").truthy then
        ⟨jsMapSet st serverId (objAssign serverInfo (message.getField "payload")),
         [], []⟩
      else ⟨st, [], []⟩
  | none => ⟨st, [], []⟩

/-- `handleTeleportRequest` (lines 245–271).  `message.to` is used as the
`Map` key: a non-string value never matches a string key, so lookup fails for
it.  Known target: forward the original message; on delivery failure send a
`TARGET_UNAVAILABLE` `teleport_response` back to the requester.  Unknown
target: send a `SERVER_NOT_FOUND` `teleport_response` back to the
requester. -/
def handleTeleportRequest (ctx : Ctx) (st : RelayState) (serverId : String)
    (message : JSVal) : HOut :=
  let toVal := message.getField "to"
  let known : Bool :=
    match toVal with
    | .str t => jsMapHas st t
    | _ => false
  if known then
    match toVal with
    | .str targetServerId =>
        let fwd := sendToServer ctx st targetServerId message
        if fwd.2 then ⟨st, [], fwd.1⟩
        else
          let errorMessage :=
            createMessage ctx "teleport_response" "relay" serverId
              (JSVal.obj (.ofList
                [("request_id", message.getField "id"),
                 ("status", JSVal.str "failed"),
                 ("error_code", JSVal.str "TARGET_UNAVAILABLE"),
                 ("message",
                  JSVal.str ("Target server " ++ jsToString toVal
                    ++ " is not available"))]))
          let back := sendToServer ctx st serverId errorMessage
          ⟨st, [errorMessage], fwd.1 ++ back.1⟩
    | _ => ⟨st, [], []⟩
  else
    let errorMessage :=
      createMessage ctx "teleport_response" "relay" serverId
        (JSVal.obj (.ofList
          [("request_id", message.getField "id"),
           ("status", JSVal.str "failed"),
           ("error_code", JSVal.str "SERVER_NOT_FOUND"),
           ("message",
            JSVal.str ("Target server " ++ jsToString toVal
              ++ " not found"))]))
    let back := sendToServer ctx st serverId errorMessage
    ⟨st, [errorMessage], back.1⟩

/-- `handleTeleportResponse` (lines 273–279): broadcast the inbound message to
every other connected server (the relay does not track the original
requester). -/
def handleTeleportResponse (ctx : Ctx) (st : RelayState) (serverId : String)
    (message : JSVal) : HOut :=
  ⟨st, [], broadcastToAll ctx st message (some serverId)⟩

/-- `handleStatusUpdate` (lines 281–286): broadcast only when `to` is the
string `"broadcast"`. -/
def handleStatusUpdate (ctx : Ctx) (st : RelayState) (serverId : String)
    (message : JSVal) : HOut :=
  if message.getField "to" = JSVal.str "broadcast" then
    ⟨st, [], broadcastToAll ctx st message (some serverId)⟩
  else ⟨st, [], []⟩

/-- The `ws.on('message')` handler body (lines 144–185) for a connection
admitted as `serverId` on transport `connWs`: validate; on failure send a
signed `error` reply on the connection's own transport and stop; on success
touch the sender's `lastSeen` (if its entry still exists) and dispatch on the
strict string match of `message.type` (unknown types are ignored). -/
def handleWsMessage (ctx : Ctx) (st : RelayState) (serverId : String)
    (connWs : JSVal) (data : JSVal) : HOut :=
  match validateParsed ctx data with
  | .err e =>
      let errorMessage :=
        createMessage ctx "error" "relay" serverId
          (JSVal.obj (.ofList
            [("error_code", JSVal.str "INVALID_MESSAGE"),
             ("error_message", JSVal.str e)]))
      ⟨st, [errorMessage], [⟨connWs, errorMessage⟩]⟩
  | .ok message =>
      let st1 :=
        match jsMapGet st serverId with
        | some serverInfo =>
            jsMapSet st serverId { serverInfo with lastSeen := JSVal.num ctx.now }
        | none => st
      if message.getField "type" = JSVal.str "heartbeat" then
        handleHeartbeat ctx st1 serverId
      else if message.getField "type" = JSVal.str "server_register" then
        handleServerRegister st1 serverId message
      else if message.getField "type" = JSVal.str "teleport_request" then
        handleTeleportRequest ctx st1 serverId message
      else if message.getField "type" = JSVal.str "teleport_response" then
        handleTeleportResponse ctx st1 serverId message
      else if message.getField "type" = JSVal.str "status_update" then
        handleStatusUpdate ctx st1 serverId message
      else ⟨st1, [], []⟩

/-- The `ws.on('close')` handler (lines 187–197): delete the sender's registry
key, then broadcast a signed leave `server_update` to every remaining entry
with an open transport (no exclusion). -/
def handleClose (ctx : Ctx) (st : RelayState) (serverId : String) : HOut :=
  let st1 := jsMapDelete st serverId
  let departMessage :=
    createMessage ctx "server_update" "relay" "broadcast"
      (JSVal.obj (.ofList
        [("action", JSVal.str "leave"),
         ("server", JSVal.obj (.ofList
           [("serverId", JSVal.str serverId),
            ("status", JSVal.str "offline")]))]))
  ⟨st1, [departMessage], broadcastToAll ctx st1 departMessage none⟩

/-- The public view of an entry used in the welcome `server_list` and `/servers`
(lines 121–126): serverId, capabilities, `lastSeen.toISOString()` and an
`"online"` status — no transport handle.  (`toISOString` on a non-date value
would throw; on the dates the program stores it formats the epoch value.) -/
def publicView (ctx : Ctx) (info : ServerInfo) : JSVal :=
  JSVal.obj (.ofList
    [("serverId", info.serverId),
     ("capabilities", info.capabilities),
     ("lastSeen",
      match info.lastSeen with
      | .num t => JSVal.str (ctx.isoStr t)
      | _ => JSVal.undef),
     ("status", JSVal.str "online")])

/-- The capability list built from the optional comma-separated
`x-minegate-capabilities` header (line 109: `capabilities ?
capabilities.split(',') : []`; a missing or empty header is falsy). -/
def capsHeader : Option String → JSVal
  | some c => if c ≠ "" then JSVal.arr (.ofList ((c.splitOn ",").map JSVal.str)) else JSVal.arr .nil
  | none => JSVal.arr .nil

/-- The `serverInfo` object literal of lines 106–113. -/
def newServerInfo (ctx : Ctx) (serverId : String)
    (version capabilities : Option String) (wsH : Nat) : ServerInfo :=
  { serverId := JSVal.str serverId
    version := match version with | some v => JSVal.str v | none => JSVal.undef
    capabilities := capsHeader capabilities
    connected := JSVal.num ctx.now
    lastSeen := JSVal.num ctx.now
    ws := JSVal.wsRef wsH
    extra := .nil }

/-- The successful-admission tail of the connection handler (lines 105–142):
build the entry from the handshake headers, insert it, send the welcome
`server_list` (all entries whose `serverId` field differs from the new id,
as public views) on the new transport, and broadcast the join `server_update`
to everyone except the new key.  (The preceding credential checks, lines
86–103, reject before any registry mutation and are outside the claims.) -/
def registerConnection (ctx : Ctx) (st : RelayState) (serverId : String)
    (version : Option String) (capabilities : Option String) (wsH : Nat) :
    HOut :=
  let serverInfo : ServerInfo :=
    newServerInfo ctx serverId version capabilities wsH
  let st1 := jsMapSet st serverId serverInfo
  let serverList :=
    (st1.filter (fun e => e.2.serverId ≠ JSVal.str serverId)).map
      (fun e => publicView ctx e.2)
  let welcomeMessage :=
    createMessage ctx "server_list" "relay" serverId
      (JSVal.obj (.cons "servers" (JSVal.arr (.ofList serverList)) .nil))
  let newServerMessage :=
    createMessage ctx "server_update" "relay" "broadcast"
      (JSVal.obj (.ofList
        [("action", JSVal.str "join"),
         ("server", JSVal.obj (.ofList
           [("serverId", JSVal.str serverId),
            ("capabilities", serverInfo.capabilities),
            ("lastSeen", JSVal.str (ctx.isoStr ctx.now)),
            ("status", JSVal.str "online")]))]))
  ⟨st1, [welcomeMessage, newServerMessage],
    ⟨JSVal.wsRef wsH, welcomeMessage⟩
      :: broadcastToAll ctx st1 newServerMessage (some serverId)⟩

/-- One tick of the stale-entry reaper (lines 360–370): drop every entry with
`now − lastSeen > 5` minutes (a non-numeric `lastSeen` makes the difference
`NaN`, and `NaN > timeout` is false, so the entry is kept); generate and send
nothing. -/
def reaperTick (ctx : Ctx) (st : RelayState) : HOut :=
  ⟨st.filter (fun e =>
      match e.2.lastSeen with
      | .num t => !(ctx.now - t > 5 * 60 * 1000 : Bool)
      | _ => true),
   [], []⟩

/-- The events the WebSocket library can deliver to one connection's handlers
after admission: a data frame, the single close event, or an error event
(whose handler, lines 199–201, only logs). -/
inductive ConnEvent : Type where
  | msg : JSVal → ConnEvent
  | close : ConnEvent
  | errEv : ConnEvent
deriving DecidableEq

/-- Dispatch one connection event to its handler. -/
def processEvent (ctx : Ctx) (serverId : String) (connWs : JSVal)
    (st : RelayState) : ConnEvent → HOut
  | .msg d => handleWsMessage ctx st serverId connWs d
  | .close => handleClose ctx st serverId
  | .errEv => ⟨st, [], []⟩

/-- Run a connection's event sequence, accumulating generated messages and
sends. -/
def processTrace (ctx : Ctx) (serverId : String) (connWs : JSVal)
    (st : RelayState) : List ConnEvent → HOut
  | [] => ⟨st, [], []⟩
  | e :: es =>
      let out := processEvent ctx serverId connWs st e
      let rest := processTrace ctx serverId connWs out.st es
      ⟨rest.st, out.gen ++ rest.gen, out.sends ++ rest.sends⟩

/-- A leave notification: a `server_update` whose payload action is
`"leave"`. -/
def isLeaveMsg (m : JSVal) : Bool :=
  m.getField "type" = JSVal.str "server_update"
    ∧ (m.getField "payload").getField "action" = JSVal.str "leave"

/-- The key-consistency invariant of the registry: every stored entry's
`serverId` field equals the `Map` key under which it is stored. -/
def serverIdMatches (st : RelayState) : Prop :=
  ∀ e ∈ st, e.2.serverId = JSVal.str e.1

instance (st : RelayState) : Decidable (serverIdMatches st) := by
  unfold serverIdMatches
  infer_instance

/-- The registry never holds two entries under one key (a JS `Map`
property). -/
def keysNodup (st : RelayState) : Prop :=
  (st.map Prod.fst).Nodup

instance (st : RelayState) : Decidable (keysNodup st) := by
  unfold keysNodup
  infer_instance

/-- A fresh entry as built at admission time, for concrete test states. -/
def mkInfo (sid : String) (h : Nat) : ServerInfo :=
  { serverId := JSVal.str sid
    version := JSVal.undef
    capabilities := JSVal.arr .nil
    connected := JSVal.num 0
    lastSeen := JSVal.num 0
    ws := JSVal.wsRef h
    extra := .nil }

/-- A concrete context for evaluating the model: clock at epoch 0, every
transport open, a fixed HMAC value, and a date parser that knows the one
string `"TS"` (epoch 0). -/
def ctxW : Ctx :=
  { now := 0
    openWs := fun _ => true
    hmac := fun _ => "MAC"
    isoStr := fun _ => "1970-01-01T00:00:00.000Z"
    freshId := "uuid-1"
    parseDate := fun s => if s = "TS" then some 0 else none }

/-- A message whose five required fields are present and fresh but whose
attached signature is not the HMAC the relay computes. -/
def msgBadSig : JSVal :=
  JSVal.obj (.ofList
    [("type", JSVal.str "status_update"),
     ("id", JSVal.str "m-1"),
     ("from", JSVal.str "a"),
     ("to", JSVal.str "b"),
     ("timestamp", JSVal.str "TS"),
     ("signature", JSVal.str "bad")])

/-- A message with an empty-string `type`: the field is present on the wire
but falsy, so the required-field check of line 27 rejects it. -/
def msgEmptyType : JSVal :=
  JSVal.obj (.ofList
    [("type", JSVal.str ""),
     ("id", JSVal.str "m-2"),
     ("from", JSVal.str "a"),
     ("to", JSVal.str "b"),
     ("timestamp", JSVal.str "TS")])

/-- A message carrying an empty-string signature: the field is present but
falsy, so line 41 skips the signature comparison entirely. -/
def msgEmptySig : JSVal :=
  JSVal.obj (.ofList
    [("type", JSVal.str "status_update"),
     ("id", JSVal.str "m-3"),
     ("from", JSVal.str "a"),
     ("to", JSVal.str "b"),
     ("timestamp", JSVal.str "TS"),
     ("signature", JSVal.str "")])

/-- A `server_register` message whose payload overwrites the entry's
`serverId`. -/
def msgHijack : JSVal :=
  JSVal.obj (.ofList
    [("type", JSVal.str "server_register"),
     ("id", JSVal.str "m-4"),
     ("from", JSVal.str "a"),
     ("to", JSVal.str "relay"),
     ("timestamp", JSVal.str "TS"),
     ("payload", JSVal.obj (.cons "serverId" (JSVal.str "evil") .nil))])

/-- A message with the five required fields, a fresh timestamp and no
signature. -/
def msgPlain : JSVal :=
  JSVal.obj (.ofList
    [("type", JSVal.str "status_update"),
     ("id", JSVal.str "m-5"),
     ("from", JSVal.str "a"),
     ("to", JSVal.str "broadcast"),
     ("timestamp", JSVal.str "TS")])

/-- A teleport request from `"a"` to `"b"`. -/
def msgTeleport : JSVal :=
  JSVal.obj (.ofList
    [("type", JSVal.str "teleport_request"),
     ("id", JSVal.str "m-6"),
     ("from", JSVal.str "a"),
     ("to", JSVal.str "b"),
     ("timestamp", JSVal.str "TS")])

/-- The concrete context, 5 minutes 1 second after epoch. -/
def ctxLate : Ctx := { ctxW with now := 301000 }

/-- The concrete context, 400 seconds after epoch, for reaper runs. -/
def ctxReap : Ctx := { ctxW with now := 400000 }

/-- A registry with one stale entry (`lastSeen` at epoch 0) and one fresh
entry (`lastSeen` 200 s after epoch), for reaper runs at `ctxReap`. -/
def stReap : RelayState :=
  [("old", mkInfo "old" 0),
   ("fresh", { mkInfo "fresh" 1 with lastSeen := JSVal.num 200000 })]

theorem jsMapHas_iff {st : RelayState} {k : String} :
    jsMapHas st k = true ↔ ∃ e ∈ st, e.1 = k := by
  simp [jsMapHas]

theorem jsMapHas_eq_false_iff {st : RelayState} {k : String} :
    jsMapHas st k = false ↔ ∀ e ∈ st, ¬ e.1 = k := by
  simp [jsMapHas]

theorem jsMapHas_false_forall {st : RelayState} {k : String}
    (h : jsMapHas st k = false) : ∀ e ∈ st, e.1 ≠ k := by
  intro e he
  simp [jsMapHas] at h
  exact h e.1 e.2 he

theorem jsMapGet_some_mem {st : RelayState} {k : String} {v : ServerInfo}
    (h : jsMapGet st k = some v) : (k, v) ∈ st := by
  unfold jsMapGet at h
  cases hf : List.find? (fun e => e.1 = k) st with
  | none => rw [hf] at h; cases h
  | some e =>
      rw [hf] at h
      have hk : e.1 = k := by simpa using List.find?_some hf
      have hv : e.2 = v := by simpa using h
      have hm := List.mem_of_find?_eq_some hf
      cases e with
      | mk a b =>
          simp only at hk hv
          rw [hk, hv] at hm
          exact hm

theorem jsMapGet_some_has {st : RelayState} {k : String} {v : ServerInfo}
    (h : jsMapGet st k = some v) : jsMapHas st k = true :=
  jsMapHas_iff.mpr ⟨(k, v), jsMapGet_some_mem h, rfl⟩

theorem jsMapGet_none_iff {st : RelayState} {k : String} :
    jsMapGet st k = none ↔ jsMapHas st k = false := by
  constructor
  · intro h
    unfold jsMapGet at h
    cases hf : List.find? (fun e => e.1 = k) st with
    | none =>
        rw [List.find?_eq_none] at hf
        simp only [jsMapHas]
        rw [List.any_eq_false]
        intro e he
        simpa using hf e he
    | some e => rw [hf] at h; cases h
  · intro h
    unfold jsMapGet
    have : List.find? (fun e => e.1 = k) st = none := by
      rw [List.find?_eq_none]
      intro e he
      simpa using jsMapHas_false_forall h e he
    rw [this]
    rfl

theorem jsMapDelete_of_not_has {st : RelayState} {k : String}
    (h : jsMapHas st k = false) : jsMapDelete st k = st := by
  unfold jsMapDelete
  rw [List.filter_eq_self]
  intro e he
  simpa using jsMapHas_false_forall h e he

theorem filter_map_replace (es : RelayState) (k : String) (v : ServerInfo) :
    (List.map (fun e => if e.1 = k then (k, v) else e) es).filter
        (fun e => ¬ e.1 = k)
      = es.filter (fun e => ¬ e.1 = k) := by
  induction es with
  | nil => rfl
  | cons e es ih =>
      simp only [decide_not] at ih
      simp only [List.map_cons, List.filter_cons]
      by_cases he : e.1 = k
      · simp [he, ih]
      · simp [he, ih]

theorem jsMapDelete_set {st : RelayState} {k : String} {v : ServerInfo} :
    jsMapDelete (jsMapSet st k v) k = jsMapDelete st k := by
  unfold jsMapSet
  by_cases h : jsMapHas st k = true
  · rw [if_pos h]
    exact filter_map_replace st k v
  · rw [if_neg h]
    unfold jsMapDelete
    rw [List.filter_append]
    simp

theorem jsMapDelete_length_of_has {st : RelayState} {k : String}
    (hnd : keysNodup st) (h : jsMapHas st k = true) :
    jsMapSize (jsMapDelete st k) + 1 = jsMapSize st := by
  induction st with
  | nil => cases h
  | cons e es ih =>
      unfold keysNodup at hnd
      simp only [List.map_cons, List.nodup_cons] at hnd
      by_cases he : e.1 = k
      · have hout : jsMapDelete (e :: es) k = jsMapDelete es k := by
          unfold jsMapDelete
          simp [List.filter_cons, he]
        have hes : jsMapDelete es k = es := by
          apply jsMapDelete_of_not_has
          rw [← Bool.not_eq_true]
          intro hc
          obtain ⟨f, hf, hfk⟩ := jsMapHas_iff.mp hc
          refine hnd.1 ?_
          rw [he, ← hfk]
          exact List.mem_map_of_mem Prod.fst hf
        rw [hout, hes]
        simp [jsMapSize]
      · have hk : jsMapHas es k = true := by
          obtain ⟨f, hf, hfk⟩ := jsMapHas_iff.mp h
          rcases List.mem_cons.mp hf with hf1 | hf2
          · exact absurd (hf1 ▸ hfk) he
          · exact jsMapHas_iff.mpr ⟨f, hf2, hfk⟩
        have hout : jsMapDelete (e :: es) k = e :: jsMapDelete es k := by
          unfold jsMapDelete
          simp [List.filter_cons, he]
        rw [hout]
        have hih := ih hnd.2 hk
        simp only [jsMapSize, List.length_cons] at hih ⊢
        omega

/-- C2 (counterexample): with an entry already stored under `"a"`,
`register("a", ·)` followed by `remove("a")` shrinks `size()` from 1 to 0,
so it does not leave `size()` at its pre-register value. -/
theorem C2_cex :
    jsMapHas [("a", mkInfo "a" 0)] "a" = true ∧
    jsMapSize (jsMapDelete (jsMapSet [("a", mkInfo "a" 0)] "a" (mkInfo "a" 1)) "a")
      ≠ jsMapSize [("a", mkInfo "a" 0)] := by
  decide

/-- C2 (amended): for every registry without duplicate keys, `register(id, v)`
followed by `remove(id)` leaves `size()` at its pre-register value when no
entry for `id` was present before the register; when an entry for `id` was
present, the pair of operations decreases `size()` by exactly one. -/
theorem C2_register_remove_size (st : RelayState) (id : String)
    (v : ServerInfo) (hnd : keysNodup st) :
    (jsMapHas st id = false →
      jsMapSize (jsMapDelete (jsMapSet st id v) id) = jsMapSize st) ∧
    (jsMapHas st id = true →
      jsMapSize (jsMapDelete (jsMapSet st id v) id) + 1 = jsMapSize st) := by
  constructor
  · intro h
    rw [jsMapDelete_set, jsMapDelete_of_not_has h]
  · intro h
    rw [jsMapDelete_set]
    exact jsMapDelete_length_of_has hnd h

theorem C2_register_remove_size_witness :
    keysNodup [("a", mkInfo "a" 0)] ∧
    jsMapHas [("a", mkInfo "a" 0)] "a" = true ∧
    jsMapSize (jsMapDelete (jsMapSet [("a", mkInfo "a" 0)] "a" (mkInfo "a" 1)) "a") + 1
      = jsMapSize [("a", mkInfo "a" 0)] :=
  ⟨by decide, by decide,
    (C2_register_remove_size [("a", mkInfo "a" 0)] "a" (mkInfo "a" 1)
      (by decide)).2 (by decide)⟩

theorem ratAbs_eq (q : ℚ) : ratAbs q = |q| := by
  unfold ratAbs
  by_cases h : q < 0
  · rw [if_pos h, abs_of_neg h]
  · rw [if_neg h, abs_of_nonneg (not_lt.mp h)]

theorem freshness_iff (now t : ℚ) :
    (|now - t| / 1000 / 60 > 5) ↔ |now - t| > 300000 := by
  rw [div_div, gt_iff_lt, lt_div_iff₀ (by norm_num : (0:ℚ) < 1000 * 60)]
  norm_num

theorem validateParsed_ok (ctx : Ctx) (p : JSVal)
    (h1 : (p.getField "type").truthy = true)
    (h2 : (p.getField "id").truthy = true)
    (h3 : (p.getField "from").truthy = true)
    (h4 : (p.getField "to").truthy = true)
    (h5 : (p.getField "timestamp").truthy = true)
    (hfresh : ∀ t : ℚ, toDateMs ctx (p.getField "timestamp") = some t →
      |ctx.now - t| ≤ 300000)
    (hsig : (p.getField "signature").truthy = false ∨
      p.getField "signature" = JSVal.str (signMessage ctx p)) :
    validateParsed ctx p = .ok p := by
  have hnn : ¬(p = JSVal.null) := by
    intro h
    subst h
    simp [JSVal.getField, JSVal.truthy] at h1
  unfold validateParsed
  rw [if_neg hnn]
  rw [if_neg (by simp [h1, h2, h3, h4, h5])]
  have hfr :
      (match toDateMs ctx (p.getField "timestamp") with
        | none => true
        | some t => !(ratAbs (ctx.now - t) / 1000 / 60 > 5 : Bool)) = true := by
    cases hts : toDateMs ctx (p.getField "timestamp") with
    | none => rfl
    | some t =>
        simp only [decide_eq_true_eq]
        rw [Bool.not_eq_true']
        rw [decide_eq_false_iff_not]
        rw [ratAbs_eq, freshness_iff]
        exact not_lt.mpr (hfresh t hts)
  simp only [hfr]
  rw [if_neg (by simp)]
  rcases hsig with hs | hs
  · rw [if_neg (by simp [hs])]
  · by_cases ht : (p.getField "signature").truthy = true
    · rw [if_pos ht, if_neg (by simp [hs])]
    · rw [if_neg (by simp [Bool.not_eq_true] at ht; simp [ht])]

theorem validateParsed_stale (ctx : Ctx) (p : JSVal) (t : ℚ)
    (h1 : (p.getField "type").truthy = true)
    (h2 : (p.getField "id").truthy = true)
    (h3 : (p.getField "from").truthy = true)
    (h4 : (p.getField "to").truthy = true)
    (h5 : (p.getField "timestamp").truthy = true)
    (hts : toDateMs ctx (p.getField "timestamp") = some t)
    (hgt : |ctx.now - t| > 300000) :
    validateParsed ctx p = .err "Message timestamp too old" := by
  have hnn : ¬(p = JSVal.null) := by
    intro h
    subst h
    simp [JSVal.getField, JSVal.truthy] at h1
  unfold validateParsed
  rw [if_neg hnn]
  rw [if_neg (by simp [h1, h2, h3, h4, h5])]
  have hfr :
      (match toDateMs ctx (p.getField "timestamp") with
        | none => true
        | some t => !(ratAbs (ctx.now - t) / 1000 / 60 > 5 : Bool)) = false := by
    rw [hts]
    simp only [Bool.not_eq_false']
    rw [decide_eq_true_eq, ratAbs_eq, freshness_iff]
    exact hgt
  simp only [hfr]
  rw [if_pos (by simp)]

theorem validateParsed_badsig (ctx : Ctx) (p : JSVal)
    (h1 : (p.getField "type").truthy = true)
    (h2 : (p.getField "id").truthy = true)
    (h3 : (p.getField "from").truthy = true)
    (h4 : (p.getField "to").truthy = true)
    (h5 : (p.getField "timestamp").truthy = true)
    (hfresh : ∀ t : ℚ, toDateMs ctx (p.getField "timestamp") = some t →
      |ctx.now - t| ≤ 300000)
    (htr : (p.getField "signature").truthy = true)
    (hne : p.getField "signature" ≠ JSVal.str (signMessage ctx p)) :
    validateParsed ctx p = .err "Invalid signature" := by
  have hnn : ¬(p = JSVal.null) := by
    intro h
    subst h
    simp [JSVal.getField, JSVal.truthy] at h1
  unfold validateParsed
  rw [if_neg hnn]
  rw [if_neg (by simp [h1, h2, h3, h4, h5])]
  have hfr :
      (match toDateMs ctx (p.getField "timestamp") with
        | none => true
        | some t => !(ratAbs (ctx.now - t) / 1000 / 60 > 5 : Bool)) = true := by
    cases hts : toDateMs ctx (p.getField "timestamp") with
    | none => rfl
    | some t =>
        simp only [decide_eq_true_eq]
        rw [Bool.not_eq_true']
        rw [decide_eq_false_iff_not]
        rw [ratAbs_eq, freshness_iff]
        exact not_lt.mpr (hfresh t hts)
  simp only [hfr]
  rw [if_neg (by simp)]
  rw [if_pos htr, if_pos hne]

/-- C3 (counterexample): two messages containing all five required fields
with timestamps at receipt time (defeating the claim's "with no further
condition"): one carries a signature differing from the relay's HMAC and
fails validation; one has an empty-string `type` value and fails the
required-field check. -/
theorem C3_cex :
    ((msgBadSig.getField "type").truthy = true ∧
     (msgBadSig.getField "id").truthy = true ∧
     (msgBadSig.getField "from").truthy = true ∧
     (msgBadSig.getField "to").truthy = true ∧
     (msgBadSig.getField "timestamp").truthy = true ∧
     toDateMs ctxW (msgBadSig.getField "timestamp") = some 0 ∧
     |ctxW.now - 0| ≤ 300000 ∧
     validateParsed ctxW msgBadSig = .err "Invalid signature") ∧
    (msgEmptyType.getField "type" = JSVal.str "" ∧
     msgEmptyType.getField "timestamp" = JSVal.str "TS" ∧
     validateParsed ctxW msgEmptyType = .err "Missing required fields") := by
  refine ⟨⟨by decide, by decide, by decide, by decide, by decide, by decide,
    by norm_num [ctxW], ?_⟩, by decide, by decide, by decide⟩
  refine validateParsed_badsig ctxW msgBadSig (by decide) (by decide)
    (by decide) (by decide) (by decide) ?_ (by decide) (by decide)
  intro u hu
  have h0 : toDateMs ctxW (msgBadSig.getField "timestamp") = some (0:ℚ) := by
    decide
  rw [h0] at hu
  cases hu
  norm_num [ctxW]

/-- C3 (amended): every inbound message whose five fields `type`, `id`,
`from`, `to`, `timestamp` are present with truthy values and whose timestamp
is within ±5 minutes of receipt passes validation, provided it carries no
truthy signature field or a signature equal to the HMAC the relay computes
over it. -/
theorem C3_required_and_fresh_validate (ctx : Ctx) (p : JSVal) (t : ℚ)
    (h1 : (p.getField "type").truthy = true)
    (h2 : (p.getField "id").truthy = true)
    (h3 : (p.getField "from").truthy = true)
    (h4 : (p.getField "to").truthy = true)
    (h5 : (p.getField "timestamp").truthy = true)
    (hts : toDateMs ctx (p.getField "timestamp") = some t)
    (hband : |ctx.now - t| ≤ 300000)
    (hsig : (p.getField "signature").truthy = false ∨
      p.getField "signature" = JSVal.str (signMessage ctx p)) :
    validateParsed ctx p = .ok p := by
  refine validateParsed_ok ctx p h1 h2 h3 h4 h5 ?_ hsig
  intro u hu
  rw [hts] at hu
  cases hu
  exact hband

theorem C3_required_and_fresh_validate_witness :
    validateParsed ctxW msgPlain = .ok msgPlain :=
  C3_required_and_fresh_validate ctxW msgPlain 0 (by decide) (by decide)
    (by decide) (by decide) (by decide) (by decide) (by norm_num [ctxW])
    (Or.inl (by decide))

/-- C5 (counterexample): a message carrying an empty-string `signature`
passes validation even though that signature differs from the HMAC the relay
computes over the message — the empty string is falsy, so line 41 skips the
comparison. -/
theorem C5_cex :
    msgEmptySig.getField "signature" = JSVal.str "" ∧
    msgEmptySig.getField "signature" ≠ JSVal.str (signMessage ctxW msgEmptySig) ∧
    validateParsed ctxW msgEmptySig = .ok msgEmptySig := by
  refine ⟨by decide, by decide, ?_⟩
  refine validateParsed_ok ctxW msgEmptySig (by decide) (by decide)
    (by decide) (by decide) (by decide) ?_ (Or.inl (by decide))
  intro u hu
  have h0 : toDateMs ctxW (msgEmptySig.getField "timestamp") = some (0:ℚ) := by
    decide
  rw [h0] at hu
  cases hu
  norm_num [ctxW]

/-- C5 (amended): on a message whose required fields and freshness pass, the
signature comparison is performed only when the `signature` field is truthy
(in particular non-empty): with a falsy signature value, or none at all, the
message passes validation; with a truthy signature it passes exactly when the
signature equals the HMAC the relay computes over the message and fails with
the invalid-signature error otherwise. -/
theorem C5_signature_checked_when_truthy (ctx : Ctx) (p : JSVal) (t : ℚ)
    (h1 : (p.getField "type").truthy = true)
    (h2 : (p.getField "id").truthy = true)
    (h3 : (p.getField "from").truthy = true)
    (h4 : (p.getField "to").truthy = true)
    (h5 : (p.getField "timestamp").truthy = true)
    (hts : toDateMs ctx (p.getField "timestamp") = some t)
    (hband : |ctx.now - t| ≤ 300000) :
    ((p.getField "signature").truthy = false →
      validateParsed ctx p = .ok p) ∧
    ((p.getField "signature").truthy = true →
      (p.getField "signature" = JSVal.str (signMessage ctx p) →
        validateParsed ctx p = .ok p) ∧
      (p.getField "signature" ≠ JSVal.str (signMessage ctx p) →
        validateParsed ctx p = .err "Invalid signature")) := by
  have hfresh : ∀ u : ℚ, toDateMs ctx (p.getField "timestamp") = some u →
      |ctx.now - u| ≤ 300000 := by
    intro u hu
    rw [hts] at hu
    cases hu
    exact hband
  refine ⟨fun hf => validateParsed_ok ctx p h1 h2 h3 h4 h5 hfresh (Or.inl hf),
    fun htr => ⟨fun heq => validateParsed_ok ctx p h1 h2 h3 h4 h5 hfresh (Or.inr heq),
      fun hne => validateParsed_badsig ctx p h1 h2 h3 h4 h5 hfresh htr hne⟩⟩

theorem C5_signature_checked_when_truthy_witness :
    validateParsed ctxW msgBadSig = .err "Invalid signature" :=
  ((C5_signature_checked_when_truthy ctxW msgBadSig 0 (by decide) (by decide)
      (by decide) (by decide) (by decide) (by decide) (by norm_num [ctxW])).2
    (by decide)).2 (by decide)

/-- C7 (confirmed): on a message whose five required fields are truthy and
whose timestamp parses to epoch value `t`, the freshness check fails exactly
when `|now − t|` exceeds 300 000 ms — symmetric in past and future skew with
the boundary at exactly 5 minutes; in particular a skew of 5 min 1 s in
either direction is rejected as stale and a skew of 4 min 59 s in either
direction is accepted (for an unsigned message). -/
theorem C7_freshness_window (ctx : Ctx) (p : JSVal) (t : ℚ)
    (h1 : (p.getField "type").truthy = true)
    (h2 : (p.getField "id").truthy = true)
    (h3 : (p.getField "from").truthy = true)
    (h4 : (p.getField "to").truthy = true)
    (h5 : (p.getField "timestamp").truthy = true)
    (hts : toDateMs ctx (p.getField "timestamp") = some t)
    (hnosig : (p.getField "signature").truthy = false) :
    (validateParsed ctx p = .err "Message timestamp too old" ↔
      |ctx.now - t| > 300000) ∧
    ((ctx.now - t = 301000 ∨ t - ctx.now = 301000) →
      validateParsed ctx p = .err "Message timestamp too old") ∧
    ((ctx.now - t = 299000 ∨ t - ctx.now = 299000) →
      validateParsed ctx p = .ok p) := by
  have hmain : (validateParsed ctx p = .err "Message timestamp too old" ↔
      |ctx.now - t| > 300000) := by
    constructor
    · intro h
      by_contra hle
      rw [not_lt] at hle
      have hok : validateParsed ctx p = .ok p := by
        refine validateParsed_ok ctx p h1 h2 h3 h4 h5 ?_ (Or.inl hnosig)
        intro u hu
        rw [hts] at hu
        cases hu
        exact hle
      rw [hok] at h
      cases h
    · intro h
      exact validateParsed_stale ctx p t h1 h2 h3 h4 h5 hts h
  refine ⟨hmain, fun hd => ?_, fun hd => ?_⟩
  · refine hmain.mpr ?_
    rcases hd with hd | hd
    · rw [abs_of_pos (by rw [hd]; norm_num), hd]
      norm_num
    · have : ctx.now - t = -301000 := by linarith
      rw [abs_of_neg (by rw [this]; norm_num), this]
      norm_num
  · refine validateParsed_ok ctx p h1 h2 h3 h4 h5 ?_ (Or.inl hnosig)
    intro u hu
    rw [hts] at hu
    cases hu
    rcases hd with hd | hd
    · rw [abs_of_pos (by rw [hd]; norm_num), hd]
      norm_num
    · have h2d : ctx.now - t = -299000 := by linarith
      rw [abs_of_neg (by rw [h2d]; norm_num), h2d]
      norm_num

theorem C7_freshness_window_witness :
    validateParsed ctxLate msgPlain = .err "Message timestamp too old" :=
  (C7_freshness_window ctxLate msgPlain 0 (by decide) (by decide) (by decide)
      (by decide) (by decide) (by decide) (by decide)).2.1
    (Or.inl (by norm_num [ctxLate, ctxW]))

/-- C9 (confirmed): an inbound message whose `timestamp` is a string that
does not parse as a valid date passes the freshness check (its time
difference is `NaN`, and `NaN > 5` is false), so it passes validation
whenever its five required fields are truthy and any attached signature is
falsy or matches the computed HMAC. -/
theorem C9_unparseable_timestamp_passes (ctx : Ctx) (p : JSVal) (s : String)
    (h1 : (p.getField "type").truthy = true)
    (h2 : (p.getField "id").truthy = true)
    (h3 : (p.getField "from").truthy = true)
    (h4 : (p.getField "to").truthy = true)
    (h5 : (p.getField "timestamp").truthy = true)
    (hstr : p.getField "timestamp" = JSVal.str s)
    (hpd : ctx.parseDate s = none)
    (hsig : (p.getField "signature").truthy = false ∨
      p.getField "signature" = JSVal.str (signMessage ctx p)) :
    validateParsed ctx p = .ok p := by
  refine validateParsed_ok ctx p h1 h2 h3 h4 h5 ?_ hsig
  intro u hu
  rw [hstr] at hu
  simp only [toDateMs] at hu
  rw [hpd] at hu
  cases hu

theorem C9_unparseable_timestamp_passes_witness :
    validateParsed ctxLate
      (JSVal.obj (.ofList
        [("type", JSVal.str "heartbeat"),
         ("id", JSVal.str "m-7"),
         ("from", JSVal.str "a"),
         ("to", JSVal.str "relay"),
         ("timestamp", JSVal.str "not-a-date")]))
      = .ok (JSVal.obj (.ofList
        [("type", JSVal.str "heartbeat"),
         ("id", JSVal.str "m-7"),
         ("from", JSVal.str "a"),
         ("to", JSVal.str "relay"),
         ("timestamp", JSVal.str "not-a-date")])) :=
  C9_unparseable_timestamp_passes ctxLate _ "not-a-date" (by decide)
    (by decide) (by decide) (by decide) (by decide) (by decide) (by decide)
    (Or.inl (by decide))

theorem nodup_mem_unique {st : RelayState} (hnd : keysNodup st) {k : String}
    {a b : ServerInfo} (ha : (k, a) ∈ st) (hb : (k, b) ∈ st) : a = b := by
  induction st with
  | nil => cases ha
  | cons e es ih =>
      unfold keysNodup at hnd
      simp only [List.map_cons, List.nodup_cons] at hnd
      rcases List.mem_cons.mp ha with ha1 | ha2 <;>
        rcases List.mem_cons.mp hb with hb1 | hb2
      · exact (Prod.ext_iff.mp (ha1.trans hb1.symm)).2
      · exfalso
        have hk : e.1 = k := by rw [← ha1]
        refine hnd.1 ?_
        rw [hk]
        exact List.mem_map.mpr ⟨(k, b), hb2, rfl⟩
      · exfalso
        have hk : e.1 = k := by rw [← hb1]
        refine hnd.1 ?_
        rw [hk]
        exact List.mem_map.mpr ⟨(k, a), ha2, rfl⟩
      · exact ih hnd.2 ha2 hb2

theorem jsMapGet_of_nodup_mem {st : RelayState} {k : String} {v : ServerInfo}
    (hnd : keysNodup st) (hm : (k, v) ∈ st) : jsMapGet st k = some v := by
  induction st with
  | nil => cases hm
  | cons e es ih =>
      unfold keysNodup at hnd
      simp only [List.map_cons, List.nodup_cons] at hnd
      rcases List.mem_cons.mp hm with he | hm2
      · unfold jsMapGet
        rw [List.find?_cons_of_pos _ (by rw [← he]; exact decide_eq_true rfl)]
        rw [← he]
        rfl
      · have hek : ¬(e.1 = k) := by
          intro hc
          refine hnd.1 ?_
          rw [hc]
          exact List.mem_map.mpr ⟨(k, v), hm2, rfl⟩
        unfold jsMapGet
        rw [List.find?_cons_of_neg _ (by simpa using hek)]
        exact ih hnd.2 hm2

theorem keysNodup_filter {st : RelayState} (p : String × ServerInfo → Bool)
    (hnd : keysNodup st) : keysNodup (st.filter p) := by
  unfold keysNodup at hnd ⊢
  exact List.Nodup.sublist (List.Sublist.map Prod.fst (List.filter_sublist st)) hnd

/-- C6 (confirmed): on a reaper tick, every registry entry whose `lastSeen`
is a date more than 5 minutes (300 000 ms) before the current time is removed
from the registry, every entry whose `lastSeen` is within the window is left
unchanged, and the tick generates no message and performs no send. -/
theorem C6_reaper_tick (ctx : Ctx) (st : RelayState) (k : String)
    (info : ServerInfo) (t : ℚ) (hnd : keysNodup st)
    (hget : jsMapGet st k = some info) (hls : info.lastSeen = JSVal.num t) :
    (reaperTick ctx st).gen = [] ∧ (reaperTick ctx st).sends = [] ∧
    (ctx.now - t > 300000 → jsMapGet (reaperTick ctx st).st k = none) ∧
    (ctx.now - t ≤ 300000 → jsMapGet (reaperTick ctx st).st k = some info) := by
  have hmem : (k, info) ∈ st := jsMapGet_some_mem hget
  have hnum : (300000 : ℚ) = 5 * 60 * 1000 := by norm_num
  refine ⟨rfl, rfl, fun hgt => ?_, fun hle => ?_⟩
  · rw [jsMapGet_none_iff, jsMapHas_eq_false_iff]
    intro e hef hek
    obtain ⟨e1, e2⟩ := e
    replace hek : e1 = k := hek
    subst hek
    have hest : (e1, e2) ∈ st := List.mem_of_mem_filter hef
    have hept := List.of_mem_filter hef
    have he2 : e2 = info := nodup_mem_unique hnd hest hmem
    subst he2
    simp only [hls] at hept
    rw [Bool.not_eq_true', decide_eq_false_iff_not] at hept
    rw [← hnum] at hept
    exact hept hgt
  · have hp : (fun e : String × ServerInfo =>
        match e.2.lastSeen with
        | .num t => !(ctx.now - t > 5 * 60 * 1000 : Bool)
        | _ => true) (k, info) = true := by
      simp only [hls]
      rw [Bool.not_eq_true', decide_eq_false_iff_not]
      rw [← hnum]
      exact not_lt.mpr hle
    unfold reaperTick
    simp only
    refine jsMapGet_of_nodup_mem (keysNodup_filter _ hnd) ?_
    exact List.mem_filter.mpr ⟨hmem, hp⟩

theorem C6_reaper_tick_witness :
    jsMapGet (reaperTick ctxReap stReap).st "old" = none ∧
    jsMapGet (reaperTick ctxReap stReap).st "fresh"
      = some { mkInfo "fresh" 1 with lastSeen := JSVal.num 200000 } :=
  ⟨(C6_reaper_tick ctxReap stReap "old" (mkInfo "old" 0) 0 (by decide)
      (by decide) (by decide)).2.2.1 (by norm_num [ctxReap, ctxW]),
   (C6_reaper_tick ctxReap stReap "fresh"
      { mkInfo "fresh" 1 with lastSeen := JSVal.num 200000 } 200000 (by decide)
      (by decide) (by decide)).2.2.2 (by norm_num [ctxReap, ctxW])⟩

/-- C4 (confirmed): for a teleport request from a connected requester with an
open transport, (a) an unknown target yields exactly one relay-generated
`teleport_response` with status failed / code SERVER_NOT_FOUND, delivered to
the requester only; (b) a known target with a non-open transport yields
exactly one relay-generated `teleport_response` with code TARGET_UNAVAILABLE,
delivered to the requester only; (c) a known target with an open transport
gets the original message forwarded and the relay generates no message of its
own. -/
theorem C4_teleport_request_routing (ctx : Ctx) (st : RelayState)
    (serverId : String) (m : JSVal) (tgt : String) (reqInfo : ServerInfo)
    (hreq : jsMapGet st serverId = some reqInfo)
    (hopen : wsOpen ctx reqInfo.ws = true)
    (hto : m.getField "to" = JSVal.str tgt) :
    (jsMapHas st tgt = false →
      handleTeleportRequest ctx st serverId m =
        ⟨st,
         [createMessage ctx "teleport_response" "relay" serverId
            (JSVal.obj (.ofList
              [("request_id", m.getField "id"),
               ("status", JSVal.str "failed"),
               ("error_code", JSVal.str "SERVER_NOT_FOUND"),
               ("message",
                JSVal.str ("Target server " ++ tgt ++ " not found"))]))],
         [⟨reqInfo.ws,
           createMessage ctx "teleport_response" "relay" serverId
            (JSVal.obj (.ofList
              [("request_id", m.getField "id"),
               ("status", JSVal.str "failed"),
               ("error_code", JSVal.str "SERVER_NOT_FOUND"),
               ("message",
                JSVal.str ("Target server " ++ tgt ++ " not found"))]))⟩]⟩) ∧
    (∀ tInfo, jsMapGet st tgt = some tInfo → wsOpen ctx tInfo.ws = false →
      handleTeleportRequest ctx st serverId m =
        ⟨st,
         [createMessage ctx "teleport_response" "relay" serverId
            (JSVal.obj (.ofList
              [("request_id", m.getField "id"),
               ("status", JSVal.str "failed"),
               ("error_code", JSVal.str "TARGET_UNAVAILABLE"),
               ("message",
                JSVal.str ("Target server " ++ tgt ++ " is not available"))]))],
         [⟨reqInfo.ws,
           createMessage ctx "teleport_response" "relay" serverId
            (JSVal.obj (.ofList
              [("request_id", m.getField "id"),
               ("status", JSVal.str "failed"),
               ("error_code", JSVal.str "TARGET_UNAVAILABLE"),
               ("message",
                JSVal.str ("Target server " ++ tgt ++ " is not available"))]))⟩]⟩) ∧
    (∀ tInfo, jsMapGet st tgt = some tInfo → wsOpen ctx tInfo.ws = true →
      handleTeleportRequest ctx st serverId m = ⟨st, [], [⟨tInfo.ws, m⟩]⟩) := by
  refine ⟨fun habs => ?_, fun tInfo htget htclosed => ?_,
    fun tInfo htget htopen2 => ?_⟩
  · simp only [handleTeleportRequest, hto, habs, Bool.false_eq_true, if_false,
      sendToServer, hreq, hopen, if_true, jsToString]
  · have hhas := jsMapGet_some_has htget
    simp only [handleTeleportRequest, hto, hhas, if_true, sendToServer, htget,
      htclosed, Bool.false_eq_true, if_false, hreq, hopen, jsToString,
      List.nil_append]
  · have hhas := jsMapGet_some_has htget
    simp only [handleTeleportRequest, hto, hhas, if_true, sendToServer, htget,
      htopen2]

theorem C4_teleport_request_routing_witness :
    handleTeleportRequest ctxW [("a", mkInfo "a" 0)] "a" msgTeleport =
      ⟨[("a", mkInfo "a" 0)],
       [createMessage ctxW "teleport_response" "relay" "a"
          (JSVal.obj (.ofList
            [("request_id", msgTeleport.getField "id"),
             ("status", JSVal.str "failed"),
             ("error_code", JSVal.str "SERVER_NOT_FOUND"),
             ("message",
              JSVal.str ("Target server " ++ "b" ++ " not found"))]))],
       [⟨(mkInfo "a" 0).ws,
         createMessage ctxW "teleport_response" "relay" "a"
          (JSVal.obj (.ofList
            [("request_id", msgTeleport.getField "id"),
             ("status", JSVal.str "failed"),
             ("error_code", JSVal.str "SERVER_NOT_FOUND"),
             ("message",
              JSVal.str ("Target server " ++ "b" ++ " not found"))]))⟩]⟩ :=
  (C4_teleport_request_routing ctxW [("a", mkInfo "a" 0)] "a" msgTeleport "b"
      (mkInfo "a" 0) (by decide) (by decide) (by decide)).1 (by decide)

theorem serverIdMatches_set {st : RelayState} {k : String} {v : ServerInfo}
    (hm : serverIdMatches st) (hv : v.serverId = JSVal.str k) :
    serverIdMatches (jsMapSet st k v) := by
  intro e he
  unfold jsMapSet at he
  by_cases h : jsMapHas st k = true
  · rw [if_pos h] at he
    obtain ⟨e0, he0, hfe⟩ := List.mem_map.mp he
    by_cases h0 : e0.1 = k
    · rw [if_pos h0] at hfe
      rw [← hfe]
      exact hv
    · rw [if_neg h0] at hfe
      rw [← hfe]
      exact hm e0 he0
  · rw [if_neg h] at he
    rcases List.mem_append.mp he with h1 | h2
    · exact hm e h1
    · have he2 : e = (k, v) := List.mem_singleton.mp h2
      rw [he2]
      exact hv

theorem serverIdMatches_sub {st st' : RelayState}
    (hsub : ∀ e ∈ st', e ∈ st) (hm : serverIdMatches st) :
    serverIdMatches st' :=
  fun e he => hm e (hsub e he)

theorem filter_serverId_eq {st : RelayState} {sid : String}
    (hm : serverIdMatches st) :
    st.filter (fun e => e.2.serverId ≠ JSVal.str sid)
      = st.filter (fun e => ¬ e.1 = sid) := by
  induction st with
  | nil => rfl
  | cons e es ih =>
      have hme : e.2.serverId = JSVal.str e.1 := hm e (List.mem_cons_self e es)
      have hms : serverIdMatches es :=
        fun f hf => hm f (List.mem_cons_of_mem e hf)
      simp only [List.filter_cons, hme, ne_eq, JSVal.str.injEq, ih hms]

theorem broadcastToAll_some (ctx : Ctx) (m : JSVal) (k : String)
    (st : RelayState) :
    broadcastToAll ctx st m (some k)
      = ((jsMapDelete st k).filter (fun e => wsOpen ctx e.2.ws)).map
          (fun e => (⟨e.2.ws, m⟩ : Send)) := by
  induction st with
  | nil => rfl
  | cons e es ih =>
      unfold broadcastToAll jsMapDelete at ih ⊢
      by_cases he : e.1 = k
      · have hskip : (fun e : String × ServerInfo =>
            if some k ≠ some e.1 ∧ wsOpen ctx e.2.ws = true then
              some (⟨e.2.ws, m⟩ : Send)
            else none) e = none := by
          show (if some k ≠ some e.1 ∧ wsOpen ctx e.2.ws = true then
            some (⟨e.2.ws, m⟩ : Send) else none) = none
          rw [if_neg]
          rintro ⟨hne, _⟩
          exact hne (congrArg some he.symm)
        simp only [List.filterMap_cons, hskip]
        rw [List.filter_cons_of_neg (by simp [he])]
        exact ih
      · by_cases ho : wsOpen ctx e.2.ws = true
        · have hkeep : (fun e : String × ServerInfo =>
              if some k ≠ some e.1 ∧ wsOpen ctx e.2.ws = true then
                some (⟨e.2.ws, m⟩ : Send)
              else none) e = some ⟨e.2.ws, m⟩ := by
            show (if some k ≠ some e.1 ∧ wsOpen ctx e.2.ws = true then
              some (⟨e.2.ws, m⟩ : Send) else none) = some ⟨e.2.ws, m⟩
            rw [if_pos]
            exact ⟨fun hc => he (Option.some.inj hc).symm, ho⟩
          simp only [List.filterMap_cons, hkeep]
          rw [List.filter_cons_of_pos (by simp [he])]
          have hstep : ∀ l : RelayState,
              List.filter (fun x : String × ServerInfo => wsOpen ctx x.2.ws)
                (e :: l)
              = e :: List.filter
                  (fun x : String × ServerInfo => wsOpen ctx x.2.ws) l := by
            intro l
            rw [List.filter_cons, if_pos ho]
          rw [hstep, List.map_cons, ih]
        · have hskip : (fun e : String × ServerInfo =>
              if some k ≠ some e.1 ∧ wsOpen ctx e.2.ws = true then
                some (⟨e.2.ws, m⟩ : Send)
              else none) e = none := by
            show (if some k ≠ some e.1 ∧ wsOpen ctx e.2.ws = true then
              some (⟨e.2.ws, m⟩ : Send) else none) = none
            rw [if_neg]
            rintro ⟨_, hop⟩
            exact ho hop
          simp only [List.filterMap_cons, hskip]
          rw [List.filter_cons_of_pos (by simp [he])]
          have hstep : ∀ l : RelayState,
              List.filter (fun x : String × ServerInfo => wsOpen ctx x.2.ws)
                (e :: l)
              = List.filter
                  (fun x : String × ServerInfo => wsOpen ctx x.2.ws) l := by
            intro l
            rw [List.filter_cons, if_neg ho]
          rw [hstep]
          exact ih

theorem broadcastToAll_none (ctx : Ctx) (m : JSVal) (st : RelayState) :
    broadcastToAll ctx st m none
      = (st.filter (fun e => wsOpen ctx e.2.ws)).map
          (fun e => (⟨e.2.ws, m⟩ : Send)) := by
  induction st with
  | nil => rfl
  | cons e es ih =>
      unfold broadcastToAll at ih ⊢
      by_cases ho : wsOpen ctx e.2.ws = true
      · have hkeep : (fun e : String × ServerInfo =>
            if none ≠ some e.1 ∧ wsOpen ctx e.2.ws = true then
              some (⟨e.2.ws, m⟩ : Send)
            else none) e = some ⟨e.2.ws, m⟩ := by
          show (if none ≠ some e.1 ∧ wsOpen ctx e.2.ws = true then
            some (⟨e.2.ws, m⟩ : Send) else none) = some ⟨e.2.ws, m⟩
          rw [if_pos]
          exact ⟨fun hc => Option.noConfusion hc, ho⟩
        simp only [List.filterMap_cons, hkeep]
        have hstep : ∀ l : RelayState,
            List.filter (fun x : String × ServerInfo => wsOpen ctx x.2.ws)
              (e :: l)
            = e :: List.filter
                (fun x : String × ServerInfo => wsOpen ctx x.2.ws) l := by
          intro l
          rw [List.filter_cons, if_pos ho]
        rw [hstep, List.map_cons, ih]
      · have hskip : (fun e : String × ServerInfo =>
            if none ≠ some e.1 ∧ wsOpen ctx e.2.ws = true then
              some (⟨e.2.ws, m⟩ : Send)
            else none) e = none := by
          show (if none ≠ some e.1 ∧ wsOpen ctx e.2.ws = true then
            some (⟨e.2.ws, m⟩ : Send) else none) = none
          rw [if_neg]
          rintro ⟨_, hop⟩
          exact ho hop
        simp only [List.filterMap_cons, hskip]
        have hstep : ∀ l : RelayState,
            List.filter (fun x : String × ServerInfo => wsOpen ctx x.2.ws)
              (e :: l)
            = List.filter
                (fun x : String × ServerInfo => wsOpen ctx x.2.ws) l := by
          intro l
          rw [List.filter_cons, if_neg ho]
        rw [hstep]
        exact ih

/-- C8 (confirmed): admission registration, close-time removal, the
per-message `lastSeen` touch and reaper eviction all preserve the invariant
that each stored entry's `serverId` field equals its registry key, but
`handleServerRegister` does not: its `Object.assign` shallow-merge lets a
`server_register` payload overwrite the entry's `serverId` (as well as its
`ws` handle or `lastSeen`), breaking the invariant. -/
theorem C8_serverId_key_invariant :
    (∀ (ctx : Ctx) (st : RelayState) (sid : String)
        (version capabilities : Option String) (wsH : Nat),
      serverIdMatches st →
      serverIdMatches (registerConnection ctx st sid version capabilities wsH).st) ∧
    (∀ (ctx : Ctx) (st : RelayState) (sid : String),
      serverIdMatches st → serverIdMatches (handleClose ctx st sid).st) ∧
    (∀ (ctx : Ctx) (st : RelayState) (sid : String) (info : ServerInfo),
      jsMapGet st sid = some info → serverIdMatches st →
      serverIdMatches
        (jsMapSet st sid { info with lastSeen := JSVal.num ctx.now })) ∧
    (∀ (ctx : Ctx) (st : RelayState),
      serverIdMatches st → serverIdMatches (reaperTick ctx st).st) ∧
    ¬ serverIdMatches (handleServerRegister [("a", mkInfo "a" 0)] "a" msgHijack).st := by
  refine ⟨fun ctx st sid v c h hm => ?_, fun ctx st sid hm => ?_,
    fun ctx st sid info hget hm => ?_, fun ctx st hm => ?_, by decide⟩
  · exact serverIdMatches_set hm rfl
  · exact serverIdMatches_sub (fun e he => List.mem_of_mem_filter he) hm
  · refine serverIdMatches_set hm ?_
    have : info.serverId = JSVal.str sid := hm _ (jsMapGet_some_mem hget)
    exact this
  · exact serverIdMatches_sub (fun e he => List.mem_of_mem_filter he) hm

theorem C8_serverId_key_invariant_witness :
    serverIdMatches (registerConnection ctxW [] "a" none none 0).st ∧
    ¬ serverIdMatches (handleServerRegister [("a", mkInfo "a" 0)] "a" msgHijack).st :=
  ⟨C8_serverId_key_invariant.1 ctxW [] "a" none none 0 (by decide),
   C8_serverId_key_invariant.2.2.2.2⟩

/-- C10 (confirmed): on a successful admission over a registry whose entries
satisfy the key-consistency invariant, the welcome `server_list` sent to the
new peer carries exactly the public views (serverId, capabilities, lastSeen,
status — no transport handle) of the registry entries other than the new
peer's own, and the join `server_update` broadcast is delivered exactly to
the other registered peers with open transports — never to the joining
peer. -/
theorem C10_admission_welcome_and_join (ctx : Ctx) (st : RelayState)
    (serverId : String) (version capabilities : Option String) (wsH : Nat)
    (hm : serverIdMatches st) :
    (registerConnection ctx st serverId version capabilities wsH).gen
      = [createMessage ctx "server_list" "relay" serverId
           (JSVal.obj (.cons "servers" (JSVal.arr (.ofList
             ((jsMapDelete st serverId).map
               (fun e => publicView ctx e.2)))) .nil)),
         createMessage ctx "server_update" "relay" "broadcast"
           (JSVal.obj (.ofList
             [("action", JSVal.str "join"),
              ("server", JSVal.obj (.ofList
                [("serverId", JSVal.str serverId),
                 ("capabilities", capsHeader capabilities),
                 ("lastSeen", JSVal.str (ctx.isoStr ctx.now)),
                 ("status", JSVal.str "online")]))]))] ∧
    (registerConnection ctx st serverId version capabilities wsH).sends
      = ⟨JSVal.wsRef wsH,
         createMessage ctx "server_list" "relay" serverId
           (JSVal.obj (.cons "servers" (JSVal.arr (.ofList
             ((jsMapDelete st serverId).map
               (fun e => publicView ctx e.2)))) .nil))⟩
        :: ((jsMapDelete st serverId).filter
              (fun e => wsOpen ctx e.2.ws)).map
             (fun e =>
               (⟨e.2.ws,
                 createMessage ctx "server_update" "relay" "broadcast"
                   (JSVal.obj (.ofList
                     [("action", JSVal.str "join"),
                      ("server", JSVal.obj (.ofList
                        [("serverId", JSVal.str serverId),
                         ("capabilities", capsHeader capabilities),
                         ("lastSeen", JSVal.str (ctx.isoStr ctx.now)),
                         ("status", JSVal.str "online")]))]))⟩ : Send)) ∧
    (∀ e ∈ jsMapDelete st serverId,
      (publicView ctx e.2).getField "ws" = JSVal.undef ∧
      (publicView ctx e.2).getField "serverId" = e.2.serverId) := by
  have hm1 : serverIdMatches (jsMapSet st serverId
      (newServerInfo ctx serverId version capabilities wsH)) :=
    serverIdMatches_set hm rfl
  have hfil : (jsMapSet st serverId
      (newServerInfo ctx serverId version capabilities wsH)).filter
        (fun e => e.2.serverId ≠ JSVal.str serverId)
      = jsMapDelete st serverId := by
    rw [filter_serverId_eq hm1]
    exact jsMapDelete_set
  unfold registerConnection
  simp only [hfil, broadcastToAll_some, jsMapDelete_set]
  exact ⟨rfl, rfl, fun e he => ⟨rfl, rfl⟩⟩

theorem C10_admission_welcome_and_join_witness :
    (registerConnection ctxW [("b", mkInfo "b" 1)] "a" none none 0).gen
      = [createMessage ctxW "server_list" "relay" "a"
           (JSVal.obj (.cons "servers" (JSVal.arr (.ofList
             ((jsMapDelete [("b", mkInfo "b" 1)] "a").map
               (fun e => publicView ctxW e.2)))) .nil)),
         createMessage ctxW "server_update" "relay" "broadcast"
           (JSVal.obj (.ofList
             [("action", JSVal.str "join"),
              ("server", JSVal.obj (.ofList
                [("serverId", JSVal.str "a"),
                 ("capabilities", capsHeader none),
                 ("lastSeen", JSVal.str (ctxW.isoStr ctxW.now)),
                 ("status", JSVal.str "online")]))]))] :=
  (C10_admission_welcome_and_join ctxW [("b", mkInfo "b" 1)] "a" none none 0
    (by decide)).1

theorem createMessage_type_getField (ctx : Ctx) (ty f t : String) (p : JSVal) :
    (createMessage ctx ty f t p).getField "type" = JSVal.str ty := rfl

theorem createMessage_payload_getField (ctx : Ctx) (ty f t : String)
    (p : JSVal) :
    (createMessage ctx ty f t p).getField "payload"
      = if p.truthy then p else JSVal.obj .nil := rfl

theorem isLeave_error (ctx : Ctx) (f t : String) (p : JSVal) :
    isLeaveMsg (createMessage ctx "error" f t p) = false := by
  unfold isLeaveMsg
  rw [decide_eq_false]
  rintro ⟨h1, _⟩
  rw [createMessage_type_getField] at h1
  exact absurd (JSVal.str.inj h1) (by decide)

theorem isLeave_hb_ack (ctx : Ctx) (f t : String) (p : JSVal) :
    isLeaveMsg (createMessage ctx "heartbeat_ack" f t p) = false := by
  unfold isLeaveMsg
  rw [decide_eq_false]
  rintro ⟨h1, _⟩
  rw [createMessage_type_getField] at h1
  exact absurd (JSVal.str.inj h1) (by decide)

theorem isLeave_tp_resp (ctx : Ctx) (f t : String) (p : JSVal) :
    isLeaveMsg (createMessage ctx "teleport_response" f t p) = false := by
  unfold isLeaveMsg
  rw [decide_eq_false]
  rintro ⟨h1, _⟩
  rw [createMessage_type_getField] at h1
  exact absurd (JSVal.str.inj h1) (by decide)

theorem isLeave_depart (ctx : Ctx) (sid : String) :
    isLeaveMsg (createMessage ctx "server_update" "relay" "broadcast"
      (JSVal.obj (.ofList
        [("action", JSVal.str "leave"),
         ("server", JSVal.obj (.ofList
           [("serverId", JSVal.str sid),
            ("status", JSVal.str "offline")]))]))) = true :=
  decide_eq_true ⟨rfl, rfl⟩

theorem handleHeartbeat_st (ctx : Ctx) (st : RelayState) (sid : String) :
    (handleHeartbeat ctx st sid).st = st := by
  unfold handleHeartbeat
  split <;> rfl

theorem handleTeleportRequest_st (ctx : Ctx) (st : RelayState) (sid : String)
    (m : JSVal) :
    (handleTeleportRequest ctx st sid m).st = st := by
  unfold handleTeleportRequest
  dsimp only
  split
  · split
    · split <;> rfl
    all_goals rfl
  · rfl

theorem countP_leave_heartbeat (ctx : Ctx) (st : RelayState) (sid : String) :
    List.countP isLeaveMsg (handleHeartbeat ctx st sid).gen = 0 := by
  unfold handleHeartbeat
  split <;> simp [List.countP_cons, isLeave_hb_ack]

theorem countP_leave_teleport_request (ctx : Ctx) (st : RelayState)
    (sid : String) (m : JSVal) :
    List.countP isLeaveMsg (handleTeleportRequest ctx st sid m).gen = 0 := by
  unfold handleTeleportRequest
  dsimp only
  split
  · split
    · split
      · simp
      · simp [List.countP_cons, isLeave_tp_resp]
    all_goals simp
  · simp [List.countP_cons, isLeave_tp_resp]

theorem handleServerRegister_gen (st : RelayState) (sid : String) (m : JSVal) :
    (handleServerRegister st sid m).gen = [] := by
  unfold handleServerRegister
  split
  · split <;> rfl
  · rfl

theorem jsMapHas_set_of_has {st : RelayState} {a : String} {v : ServerInfo}
    (h : jsMapHas st a = true) (k : String) :
    jsMapHas (jsMapSet st a v) k = jsMapHas st k := by
  unfold jsMapSet
  rw [if_pos h]
  unfold jsMapHas
  rw [List.any_map]
  congr 1
  funext e
  simp only [Function.comp]
  by_cases he : e.1 = a
  · simp [he]
  · simp [he]

theorem jsMapHas_delete_self (st : RelayState) (k : String) :
    jsMapHas (jsMapDelete st k) k = false := by
  rw [jsMapHas_eq_false_iff]
  intro e he
  simpa using List.of_mem_filter he

theorem jsMapHas_touch (ctx : Ctx) (st : RelayState) (sid k : String) :
    jsMapHas (match jsMapGet st sid with
      | some serverInfo =>
          jsMapSet st sid { serverInfo with lastSeen := JSVal.num ctx.now }
      | none => st) k = jsMapHas st k := by
  cases hget : jsMapGet st sid with
  | none => rfl
  | some info => exact jsMapHas_set_of_has (jsMapGet_some_has hget) k

theorem jsMapHas_handleServerRegister (st : RelayState) (sid : String)
    (m : JSVal) (k : String) :
    jsMapHas (handleServerRegister st sid m).st k = jsMapHas st k := by
  unfold handleServerRegister
  cases hget : jsMapGet st sid with
  | none => rfl
  | some info =>
      dsimp only
      split
      · exact jsMapHas_set_of_has (jsMapGet_some_has hget) k
      · rfl

theorem handleStatusUpdate_st (ctx : Ctx) (st : RelayState) (sid : String)
    (m : JSVal) : (handleStatusUpdate ctx st sid m).st = st := by
  unfold handleStatusUpdate
  split <;> rfl

theorem handleStatusUpdate_gen (ctx : Ctx) (st : RelayState) (sid : String)
    (m : JSVal) : (handleStatusUpdate ctx st sid m).gen = [] := by
  unfold handleStatusUpdate
  split <;> rfl

theorem jsMapHas_handleWsMessage (ctx : Ctx) (st : RelayState) (sid : String)
    (connWs d : JSVal) (k : String) :
    jsMapHas (handleWsMessage ctx st sid connWs d).st k = jsMapHas st k := by
  unfold handleWsMessage
  cases hv : validateParsed ctx d with
  | err e => rfl
  | ok message =>
      dsimp only
      have htouch := jsMapHas_touch ctx st sid k
      split
      · rw [handleHeartbeat_st]
        exact htouch
      · split
        · rw [jsMapHas_handleServerRegister]
          exact htouch
        · split
          · rw [handleTeleportRequest_st]
            exact htouch
          · split
            · exact htouch
            · split
              · rw [handleStatusUpdate_st]
                exact htouch
              · exact htouch

theorem countP_leave_handleWsMessage (ctx : Ctx) (st : RelayState)
    (sid : String) (connWs d : JSVal) :
    List.countP isLeaveMsg (handleWsMessage ctx st sid connWs d).gen = 0 := by
  unfold handleWsMessage
  cases hv : validateParsed ctx d with
  | err e => simp [List.countP_cons, isLeave_error]
  | ok message =>
      dsimp only
      split
      · exact countP_leave_heartbeat ctx _ sid
      · split
        · rw [handleServerRegister_gen]
          rfl
        · split
          · exact countP_leave_teleport_request ctx _ sid message
          · split
            · rfl
            · split
              · rw [handleStatusUpdate_gen]
                rfl
              · rfl

theorem processTrace_leave_count (ctx : Ctx) (sid : String) (connWs : JSVal) :
    ∀ (es : List ConnEvent) (st : RelayState),
      List.countP isLeaveMsg (processTrace ctx sid connWs st es).gen
        = es.count ConnEvent.close := by
  intro es
  induction es with
  | nil =>
      intro st
      rfl
  | cons e es ih =>
      intro st
      unfold processTrace
      dsimp only
      rw [List.countP_append, ih]
      cases e with
      | msg d =>
          dsimp only [processEvent]
          rw [countP_leave_handleWsMessage]
          simp [List.count_cons]
      | close =>
          dsimp only [processEvent]
          unfold handleClose
          dsimp only
          simp [List.countP_cons, isLeave_depart, List.count_cons]
          omega
      | errEv =>
          dsimp only [processEvent]
          simp [List.count_cons]

theorem processTrace_preserves_absent (ctx : Ctx) (sid : String)
    (connWs : JSVal) :
    ∀ (es : List ConnEvent) (st : RelayState), jsMapHas st sid = false →
      jsMapHas (processTrace ctx sid connWs st es).st sid = false := by
  intro es
  induction es with
  | nil =>
      intro st h
      exact h
  | cons e es ih =>
      intro st h
      unfold processTrace
      dsimp only
      refine ih _ ?_
      cases e with
      | msg d =>
          dsimp only [processEvent]
          rw [jsMapHas_handleWsMessage]
          exact h
      | close => exact jsMapHas_delete_self st sid
      | errEv => exact h

theorem processTrace_absent_after_close (ctx : Ctx) (sid : String)
    (connWs : JSVal) :
    ∀ (es : List ConnEvent) (st : RelayState),
      0 < es.count ConnEvent.close →
      jsMapHas (processTrace ctx sid connWs st es).st sid = false := by
  intro es
  induction es with
  | nil =>
      intro st h
      simp at h
  | cons e es ih =>
      intro st h
      unfold processTrace
      dsimp only
      cases e with
      | msg d =>
          refine ih _ ?_
          simpa [List.count_cons] using h
      | close =>
          exact processTrace_preserves_absent ctx sid connWs es _
            (jsMapHas_delete_self st sid)
      | errEv =>
          refine ih _ ?_
          simpa [List.count_cons] using h

/-- C1 (confirmed): over any event sequence delivered to an authenticated
connection's handlers that contains exactly one close event (the WebSocket
library fires close once per connection, whatever the cause), the relay
generates exactly one leave notification; after the sequence the connection's
serverId has no registry entry; and each close handler invocation — from any
registry state, including one where the entry was replaced by a newer
connection under the same serverId or already evicted by the reaper —
deletes the serverId key and broadcasts one signed leave `server_update`
exactly to the remaining entries with open transports. -/
theorem C1_close_removes_and_notifies_once (ctx : Ctx) (sid : String)
    (connWs : JSVal) (st : RelayState) (es : List ConnEvent)
    (hone : es.count ConnEvent.close = 1) :
    List.countP isLeaveMsg (processTrace ctx sid connWs st es).gen = 1 ∧
    jsMapHas (processTrace ctx sid connWs st es).st sid = false ∧
    (∀ st' : RelayState,
      (handleClose ctx st' sid).st = jsMapDelete st' sid ∧
      jsMapHas (handleClose ctx st' sid).st sid = false ∧
      (handleClose ctx st' sid).gen
        = [createMessage ctx "server_update" "relay" "broadcast"
             (JSVal.obj (.ofList
               [("action", JSVal.str "leave"),
                ("server", JSVal.obj (.ofList
                  [("serverId", JSVal.str sid),
                   ("status", JSVal.str "offline")]))]))] ∧
      isLeaveMsg (createMessage ctx "server_update" "relay" "broadcast"
        (JSVal.obj (.ofList
          [("action", JSVal.str "leave"),
           ("server", JSVal.obj (.ofList
             [("serverId", JSVal.str sid),
              ("status", JSVal.str "offline")]))]))) = true ∧
      (handleClose ctx st' sid).sends
        = ((jsMapDelete st' sid).filter (fun e => wsOpen ctx e.2.ws)).map
            (fun e =>
              (⟨e.2.ws,
                createMessage ctx "server_update" "relay" "broadcast"
                  (JSVal.obj (.ofList
                    [("action", JSVal.str "leave"),
                     ("server", JSVal.obj (.ofList
                       [("serverId", JSVal.str sid),
                        ("status", JSVal.str "offline")]))]))⟩ : Send))) := by
  refine ⟨?_, ?_, fun st' => ⟨rfl, jsMapHas_delete_self st' sid, rfl,
    isLeave_depart ctx sid, ?_⟩⟩
  · rw [processTrace_leave_count ctx sid connWs es st, hone]
  · exact processTrace_absent_after_close ctx sid connWs es st
      (by rw [hone]; norm_num)
  · exact broadcastToAll_none ctx _ (jsMapDelete st' sid)

theorem C1_close_removes_and_notifies_once_witness :
    List.countP isLeaveMsg
      (processTrace ctxW "a" (JSVal.wsRef 0) [("a", mkInfo "a" 0)]
        [ConnEvent.close]).gen = 1 ∧
    jsMapHas
      (processTrace ctxW "a" (JSVal.wsRef 0) [("a", mkInfo "a" 0)]
        [ConnEvent.close]).st "a" = false :=
  ⟨(C1_close_removes_and_notifies_once ctxW "a" (JSVal.wsRef 0)
      [("a", mkInfo "a" 0)] [ConnEvent.close] (by decide)).1,
   (C1_close_removes_and_notifies_once ctxW "a" (JSVal.wsRef 0)
      [("a", mkInfo "a" 0)] [ConnEvent.close] (by decide)).2.1⟩
